import Mathlib

/-!
Verification of the pi-wakatime extension (event-to-heartbeat translation and
session-state layer). The definitions below are a shallow embedding of the
TypeScript source (index file of the repository, the latest design iteration;
the legacy `wakatime.ts` differs only where noted). Filesystem reads, the home
directory, and the parsed settings file are passed in as explicit environment
parameters; paths are modelled for the posix case without dot-segment
normalization, which none of the verified properties depend on.
-/

namespace PiWakatime

/-! ### JavaScript truthiness helpers

The source uses `a || b` on strings and `if (x)` on optional strings, for
which the empty string and `undefined` are both falsy. -/

/-- `truthy a` is `some s` exactly when the JS value (`undefined` for `none`)
is truthy, i.e. present and not the empty string. -/
def truthy (a : Option String) : Option String :=
  match a with
  | some s => if s = "" then none else some s
  | none => none

/-- JS `a || b` for an optional string `a` and a string `b`. -/
def jsOrStr (a : Option String) (b : String) : String :=
  (truthy a).getD b

/-- JS `a || b` for two optional strings: the first truthy value, if any. -/
def jsOrS (a b : Option String) : Option String :=
  match truthy a with
  | some s => some s
  | none => truthy b

/-! ### Character-level string primitives

`String.trim`, `String.startsWith` and `String.drop` from the Lean library
are implemented on byte positions; the JS operations are modelled here
directly on the character list instead, which keeps every definition
evaluable by the kernel. -/

/-- The JS whitespace test `\s` restricted to its ASCII members (the exotic
Unicode space code points never occur in the verified properties). -/
def isJsWs (c : Char) : Bool :=
  c = ' ' || c = '\t' || c = '\n' || c = '\r' || c = '\x0b' || c = '\x0c'

/-- JS `s.startsWith(p)`. -/
def strStartsWith (s p : String) : Bool :=
  p.data.isPrefixOf s.data

/-- JS `s.trim()`: strip leading and trailing whitespace. -/
def strTrim (s : String) : String :=
  String.mk (((s.data.dropWhile isJsWs).reverse.dropWhile isJsWs).reverse)

/-- JS `s.slice(n)` for a non-negative `n` (code units and characters agree on
the ASCII content handled here). -/
def strDrop (s : String) (n : Nat) : String :=
  String.mk (s.data.drop n)

/-! ### Path helpers (posix, no dot-segment normalization) -/

/-- Models `path.join(a, b)` for the uses in the source: concatenation with a
single separator (node additionally collapses duplicate slashes and dot
segments, which never arise in the verified properties). -/
def pathJoin (a b : String) : String :=
  if strStartsWith b "/" then a ++ b else a ++ "/" ++ b

/-- Models `path.isAbsolute(p) ? p : path.resolve(cwd, p)` on posix. -/
def pathResolve (cwd p : String) : String :=
  if strStartsWith p "/" then p else cwd ++ "/" ++ p

/-! ### Repository locator (`findGitDir`)

Directories are modelled as lists of path components, deepest first, so that
`path.dirname` is `List.tail` and the filesystem root is `[]`; the source loop
`while (dir !== path.dirname(dir))` therefore runs while the list is nonempty
and never examines the root itself. The filesystem is abstracted by a function
giving, for each directory, the state of its `.git` entry. -/

/-- State of the `.git` entry of one directory: absent, a directory, a file
with the given raw content, or present but neither (the source then falls
through to the parent, as for an absent entry). -/
inductive GitEntry where
  | missing : GitEntry
  | dir : GitEntry
  | file (content : String) : GitEntry
  | strange : GitEntry
deriving DecidableEq, Repr

/-- Result of `findGitDir`: the `.git` directory path of some level, or the
target written in a worktree redirect file (`content.slice(8)` of the trimmed
content, after the `"gitdir: "` marker). -/
inductive GitDirResult where
  | gitDir (dir : List String) : GitDirResult
  | worktree (target : String) : GitDirResult
deriving DecidableEq, Repr

/-- Embedding of `findGitDir(startDir)`. At each level: a `.git` directory is
returned; a `.git` file whose trimmed content starts with `"gitdir: "` yields
the redirect target; anything else falls through to the parent directory. -/
def findGitDir (gitfs : List String → GitEntry) : List String → Option GitDirResult
  | [] => none
  | d :: rest =>
    match gitfs (d :: rest) with
    | GitEntry.dir => some (GitDirResult.gitDir (d :: rest))
    | GitEntry.file content =>
      let c := strTrim content
      if strStartsWith c "gitdir: " then some (GitDirResult.worktree (strDrop c 8))
      else findGitDir gitfs rest
    | _ => findGitDir gitfs rest

/-- The result the locator would produce from one single level, consulting no
ancestor: a `.git` directory or a well-formed redirect file succeeds, anything
else (including a `.git` file with malformed content) yields nothing. The
root level is never examined by the source loop. -/
def levelResult (gitfs : List String → GitEntry) : List String → Option GitDirResult
  | [] => none
  | d :: rest =>
    match gitfs (d :: rest) with
    | GitEntry.dir => some (GitDirResult.gitDir (d :: rest))
    | GitEntry.file content =>
      let c := strTrim content
      if strStartsWith c "gitdir: " then some (GitDirResult.worktree (strDrop c 8))
      else none
    | _ => none

/-! ### Configuration and session state -/

/-- The `WakaTimeConfig` interface. -/
structure WakaTimeConfig where
  enabled : Bool
  trackFiles : Bool
  trackSessions : Bool
  category : String
  cliPath : String
deriving DecidableEq, Repr

/-- The `wakatime` sub-object of `settings.json`: a partial override of the
default configuration, one optional field per config key (JS object spread
`{ ...defaultConfig, ...settings.wakatime }` keeps the default for fields the
override does not mention). -/
structure SettingsOverride where
  enabled : Option Bool := none
  trackFiles : Option Bool := none
  trackSessions : Option Bool := none
  category : Option String := none
  cliPath : Option String := none
deriving DecidableEq, Repr

/-- `{ ...base, ...o }`. -/
def mergeConfig (base : WakaTimeConfig) (o : SettingsOverride) : WakaTimeConfig :=
  { enabled := o.enabled.getD base.enabled
    trackFiles := o.trackFiles.getD base.trackFiles
    trackSessions := o.trackSessions.getD base.trackSessions
    category := o.category.getD base.category
    cliPath := o.cliPath.getD base.cliPath }

/-- The module-level `defaultConfig`, whose `cliPath` is
`path.join(os.homedir(), ".wakatime", "wakatime-cli")`. -/
def defaultConfig (homedir : String) : WakaTimeConfig :=
  { enabled := true
    trackFiles := true
    trackSessions := true
    category := "ai coding"
    cliPath := pathJoin (pathJoin homedir ".wakatime") "wakatime-cli" }

/-- The module-level mutable session state: `config`, `currentModel`,
`currentProject`, `currentBranch`, `cliAvailable`. -/
structure SessionState where
  config : WakaTimeConfig
  currentModel : Option String
  currentProject : Option String
  currentBranch : Option String
  cliAvailable : Bool
deriving DecidableEq, Repr

/-- Environment read by `loadConfig`: the parsed `settings.wakatime` object
(`none` when the settings file is absent, unparsable, or has no `wakatime`
key — in all three cases the source leaves `config` unchanged), the home
directory, an existence oracle for the CLI path, the working directory, and
the git filesystem together with an oracle for the content of the `HEAD` file
of a located git directory (`none` when that file does not exist). -/
structure LoadEnv where
  settingsWakatime : Option SettingsOverride
  homedir : String
  fileExists : String → Bool
  cwd : List String
  gitfs : List String → GitEntry
  headContent : GitDirResult → Option String

/-- `path.basename` of a component-list directory. -/
def basename : List String → String
  | [] => ""
  | d :: _ => d

/-- The branch-detection block of `loadConfig`: locate the git directory, read
its `HEAD` file, and if the trimmed content starts with `"ref: refs/heads/"`
strip that prefix (the source's `head.replace(prefix, "")` removes the first
occurrence, which the `startsWith` guard places at the front, 16 characters).
On any failure the previous value of `currentBranch` is kept — the source only
ever assigns to it. -/
def detectBranch (env : LoadEnv) (prev : Option String) : Option String :=
  match findGitDir env.gitfs env.cwd with
  | some g =>
    match env.headContent g with
    | some h =>
      let head := strTrim h
      if strStartsWith head "ref: refs/heads/" then some (strDrop head 16) else prev
    | none => prev
  | none => prev

/-- Embedding of `loadConfig(ctx)`: merge settings over the defaults (or keep
the previous config when no override object is obtained), expand a leading `~`
in `cliPath`, recompute `cliAvailable`, derive `currentProject` from the
working directory's basename, and run branch detection. -/
def loadConfig (env : LoadEnv) (s : SessionState) : SessionState :=
  let cfg0 :=
    match env.settingsWakatime with
    | some o => mergeConfig (defaultConfig env.homedir) o
    | none => s.config
  let cfg :=
    if strStartsWith cfg0.cliPath "~" then
      { cfg0 with cliPath := pathJoin env.homedir (strDrop cfg0.cliPath 1) }
    else cfg0
  { s with
    config := cfg
    cliAvailable := env.fileExists cfg.cliPath
    currentProject := some (basename env.cwd)
    currentBranch := detectBranch env s.currentBranch }

/-- The model descriptor `{ provider, id }` carried by event contexts. -/
structure ModelDesc where
  provider : String
  id : String
deriving DecidableEq, Repr

/-- `updateModelFromContext(ctx)`: set `currentModel` to `provider/id` when
the context carries a model, otherwise leave it unchanged. -/
def updateModelFromContext (model? : Option ModelDesc) (s : SessionState) : SessionState :=
  match model? with
  | some m => { s with currentModel := some (m.provider ++ "/" ++ m.id) }
  | none => s

/-! ### Heartbeat dispatcher (`sendHeartbeat`) -/

/-- The `entityType` field of `HeartbeatOptions`. -/
inductive EntityType where
  | file : EntityType
  | app : EntityType
  | domain : EntityType
deriving DecidableEq, Repr

/-- The string pushed for `--entity-type`. -/
def EntityType.render : EntityType → String
  | EntityType.file => "file"
  | EntityType.app => "app"
  | EntityType.domain => "domain"

/-- The `HeartbeatOptions` interface; optional fields are `Option`s. In the
source `isWrite` is an optional boolean tested for truthiness. -/
structure HeartbeatOptions where
  entity : String
  entityType : Option EntityType := none
  category : Option String := none
  project : Option String := none
  branch : Option String := none
  isWrite : Option Bool := none
  aiLineChanges : Option Nat := none
  plugin : Option String := none
deriving DecidableEq, Repr

/-- `args.push("--entity", opts.entity)`. -/
def entityArgs (opts : HeartbeatOptions) : List String :=
  ["--entity", opts.entity]

/-- The conditional `--entity-type` push. -/
def entityTypeArgs (opts : HeartbeatOptions) : List String :=
  match opts.entityType with
  | some t => ["--entity-type", t.render]
  | none => []

/-- `args.push("--category", opts.category || config.category)`. -/
def categoryArgs (configCategory : String) (opts : HeartbeatOptions) : List String :=
  ["--category", jsOrStr opts.category configCategory]

/-- `if (opts.project || currentProject) args.push("--project", ...)`. -/
def projectArgs (currentProject : Option String) (opts : HeartbeatOptions) : List String :=
  match jsOrS opts.project currentProject with
  | some p => ["--project", p]
  | none => []

/-- `if (opts.branch || currentBranch) args.push("--alternate-branch", ...)`. -/
def branchArgs (currentBranch : Option String) (opts : HeartbeatOptions) : List String :=
  match jsOrS opts.branch currentBranch with
  | some b => ["--alternate-branch", b]
  | none => []

/-- `if (opts.isWrite) args.push("--write")`; only a present `true` is truthy. -/
def writeArgs (opts : HeartbeatOptions) : List String :=
  if opts.isWrite = some true then ["--write"] else []

/-- `if (opts.aiLineChanges && opts.aiLineChanges > 0) args.push(...)`. -/
def aiLineChangesArgs (opts : HeartbeatOptions) : List String :=
  match opts.aiLineChanges with
  | some n => if 0 < n then ["--ai-line-changes", toString n] else []
  | none => []

/-- The plugin identifier: `opts.plugin || "pi-coding-agent/" + piVersion`.
The latest source composes it from the fixed name and the detected host
version only; `currentModel` is not consulted. (The legacy `wakatime.ts`
instead appended the model to a hardcoded version.) -/
def pluginArgs (piVersion : String) (opts : HeartbeatOptions) : List String :=
  ["--plugin", jsOrStr opts.plugin ("pi-coding-agent/" ++ piVersion)]

/-- Embedding of `sendHeartbeat(opts)` up to the subprocess boundary: `none`
when the gate `!config.enabled || !cliAvailable` fires (no subprocess is
spawned), otherwise the exact argument list handed to the CLI, in push
order. -/
def sendHeartbeatArgs (s : SessionState) (piVersion : String) (opts : HeartbeatOptions) :
    Option (List String) :=
  if s.config.enabled && s.cliAvailable then
    some (entityArgs opts ++ entityTypeArgs opts ++ categoryArgs s.config.category opts ++
      projectArgs s.currentProject opts ++ branchArgs s.currentBranch opts ++
      writeArgs opts ++ aiLineChangesArgs opts ++ pluginArgs piVersion opts)
  else none

/-- `sendHeartbeat` as a state transformer: the source function never assigns
any session variable and swallows every subprocess outcome, so the state
component is returned unchanged; the second component is the spawned argument
list, if any. -/
def sendHeartbeat (s : SessionState) (piVersion : String) (opts : HeartbeatOptions) :
    SessionState × Option (List String) :=
  (s, sendHeartbeatArgs s piVersion opts)

/-! ### The `tool_result` handler -/

/-- `countLines(content)` is `content.split("\n").length`, which for the
single-character separator equals the number of newline characters plus one. -/
def countLines (content : String) : Nat :=
  content.data.count '\n' + 1

/-- The `tool_result` event payload fields read by the handler. -/
structure ToolEvent where
  toolName : String
  path : Option String := none
  content : Option String := none
  oldText : Option String := none
  newText : Option String := none
deriving DecidableEq, Repr

/-- The context fields read by the handler: working directory, an existence
oracle for the resolved entity path, and the optional model descriptor. -/
structure ToolCtx where
  cwd : String
  fileExists : String → Bool
  model : Option ModelDesc

/-- The body of the `tool_result` handler after its config gate and model
update: which heartbeat options, if any, are passed to `sendHeartbeat`.
`none` means the handler returns without dispatching. -/
def dispatchDecision (ev : ToolEvent) (cwd : String) (fileExists : String → Bool) :
    Option HeartbeatOptions :=
  if (["read", "write", "edit"] : List String).contains ev.toolName then
    match truthy ev.path with
    | some filePath =>
      let absolutePath := pathResolve cwd filePath
      if ev.toolName = "read" && !(fileExists absolutePath) then none
      else
        let aiLineChanges : Option Nat :=
          if ev.toolName = "write" then
            match truthy ev.content with
            | some content => some (countLines content)
            | none => none
          else if ev.toolName = "edit" then
            match truthy ev.oldText, truthy ev.newText with
            | some oldText, some newText =>
              let d := ((countLines newText : Int) - (countLines oldText : Int)).natAbs
              some (if d = 0 then 1 else d)
            | _, _ => none
          else none
        some { entity := absolutePath
               entityType := some EntityType.file
               isWrite := some (decide (ev.toolName ≠ "read"))
               aiLineChanges := aiLineChanges }
    | none => none
  else none

/-- Embedding of the whole `tool_result` handler: gate on
`config.enabled && config.trackFiles`, update the model from the context, and
dispatch according to `dispatchDecision`. -/
def handleToolResult (s : SessionState) (piVersion : String) (ev : ToolEvent) (ctx : ToolCtx) :
    SessionState × Option (List String) :=
  if s.config.enabled && s.config.trackFiles then
    let s1 := updateModelFromContext ctx.model s
    match dispatchDecision ev ctx.cwd ctx.fileExists with
    | some opts => sendHeartbeat s1 piVersion opts
    | none => (s1, none)
  else (s, none)

/-! ### Credential validation (`isValidApiKey`)

The two accepted shapes are the regexes
`/^[0-9a-f]{8}-[0-9a-f]{4}-[0-9a-f]{4}-[0-9a-f]{4}-[0-9a-f]{12}$/i` and the
same with a `waka_` mark in front. They are modelled positionally: consume an
exact run of hex digits, a dash, and so on, ending exactly at the end of the
string. -/

/-- A hex digit, case-insensitive (the `i` regex flag). -/
def isHexI (c : Char) : Bool :=
  ('0' ≤ c && c ≤ '9') || ('a' ≤ c && c ≤ 'f') || ('A' ≤ c && c ≤ 'F')

/-- Consume exactly `n` hex digits, returning the remainder. -/
def hexRun : Nat → List Char → Option (List Char)
  | 0, cs => some cs
  | _ + 1, [] => none
  | n + 1, c :: cs => if isHexI c then hexRun n cs else none

/-- Consume one dash. -/
def consumeDash : List Char → Option (List Char)
  | c :: cs => if c = '-' then some cs else none
  | [] => none

/-- The bare UUID shape `8-4-4-4-12`, anchored at both ends. -/
def uuidChars (cs : List Char) : Bool :=
  ((((((((hexRun 8 cs).bind consumeDash).bind (hexRun 4)).bind consumeDash).bind
    (hexRun 4)).bind consumeDash).bind (hexRun 4)).bind consumeDash).bind (hexRun 12)
    == some []

/-- The characters of the `waka_` mark. -/
def wakaMark : List Char := ['w', 'a', 'k', 'a', '_']

/-- The prefixed shape: the `waka_` mark followed by a bare UUID. -/
def wakaKeyChars (cs : List Char) : Bool :=
  wakaMark.isPrefixOf cs && uuidChars (cs.drop 5)

/-- `isValidApiKey` on the character list of the credential string. -/
def isValidApiKeyL (cs : List Char) : Bool :=
  uuidChars cs || wakaKeyChars cs

/-- Embedding of `isValidApiKey(key)`. -/
def isValidApiKey (key : String) : Bool :=
  isValidApiKeyL key.data

/-! ### The credentials file (`saveApiKey` / the setup command)

The source manipulates `~/.wakatime.cfg` with the multiline regexes
`/^\s*api_key\s*=/m` (test), `/^\s*api_key\s*=.*$/m`-style replacement and
`/^\[settings\]/m`. With the `m` flag, a match can only start at an anchor: the
beginning of the content or the position right after a newline. The scanners
below walk the character list carrying an `atAnchor` flag and consult a
matcher `ml` only at anchors; `ml` returns the length of the match starting
there, if any. -/

/-- A character matched by the regex `.` (not a line terminator; the rare
` `/` ` cases never arise here). -/
def plainChar (c : Char) : Bool :=
  c != '\n' && c != '\r'

/-- Length of the maximal leading run satisfying `p` (a greedy `p*`). -/
def countWhile (p : Char → Bool) : List Char → Nat
  | [] => 0
  | c :: cs => if p c then countWhile p cs + 1 else 0

/-- The characters of `api_key`. -/
def apiKeyChars : List Char := ['a', 'p', 'i', '_', 'k', 'e', 'y']

/-- The characters of `[settings]`. -/
def settingsChars : List Char := ['[', 's', 'e', 't', 't', 'i', 'n', 'g', 's', ']']

/-- The characters of the replacement text `api_key = ` before the key. -/
def apiKeyEq : List Char := apiKeyChars ++ [' ', '=', ' ']

/-- Matcher for `\s*api_key\s*=.*` at one position: optional whitespace (which
with `\s` may span line breaks), the literal `api_key`, optional whitespace,
`=`, then the rest of the line. The test regex omits the trailing `.*`; since
`.*` accepts the empty string the two regexes match at the same positions, so
one matcher serves both, returning the replacement length. -/
def apiKeyMatchLen (cs : List Char) : Option Nat :=
  let n1 := countWhile isJsWs cs
  let cs1 := cs.drop n1
  if apiKeyChars.isPrefixOf cs1 then
    let cs2 := cs1.drop 7
    let n2 := countWhile isJsWs cs2
    match cs2.drop n2 with
    | '=' :: rest => some (n1 + 7 + n2 + 1 + countWhile plainChar rest)
    | _ => none
  else none

/-- Matcher for the literal `[settings]` at one position. -/
def settingsMatchLen (cs : List Char) : Option Nat :=
  if settingsChars.isPrefixOf cs then some 10 else none

/-- `regex.test(content)` for an `^`-anchored multiline regex given by `ml`:
does any anchor position match? (Our matchers never match the empty string, so
the end-of-content anchor contributes nothing.) -/
def goTest (ml : List Char → Option Nat) : Bool → List Char → Bool
  | _, [] => false
  | false, c :: rest => goTest ml (c == '\n') rest
  | true, c :: rest => (ml (c :: rest)).isSome || goTest ml (c == '\n') rest

/-- `content.replace(regex, repl)` for an `^`-anchored multiline regex: copy
characters until the leftmost matching anchor, replace the match there by
`repl`, and keep the remainder unchanged (JS replaces only the first match
when the regex has no `g` flag). -/
def goRepl (ml : List Char → Option Nat) (repl : List Char) : Bool → List Char → List Char
  | _, [] => []
  | false, c :: rest => c :: goRepl ml repl (c == '\n') rest
  | true, c :: rest =>
    match ml (c :: rest) with
    | some n => repl ++ (c :: rest).drop n
    | none => c :: goRepl ml repl (c == '\n') rest

/-- The number of anchor positions at which `ml` matches — the measurement
used to state `exactly one settings section / api_key entry`. -/
def goCount (ml : List Char → Option Nat) : Bool → List Char → Nat
  | _, [] => 0
  | false, c :: rest => goCount ml (c == '\n') rest
  | true, c :: rest => (if (ml (c :: rest)).isSome then 1 else 0) + goCount ml (c == '\n') rest

/-- `/^\s*api_key\s*=/m.test(content)`. -/
def hasApiKeyLine (cs : List Char) : Bool := goTest apiKeyMatchLen true cs

/-- `/^\[settings\]/m.test(content)`. -/
def hasSettingsHeader (cs : List Char) : Bool := goTest settingsMatchLen true cs

/-- Embedding of `saveApiKey` on the credentials-file content (`none` when
the file does not exist): replace an existing `api_key` line, else insert
after an existing `[settings]` header, else create both in front, else write
a fresh file. Filesystem write failures (the source's catch-all) are outside
the model. -/
def saveApiKeyContent (old : Option (List Char)) (key : List Char) : List Char :=
  match old with
  | some content =>
    if hasApiKeyLine content then
      goRepl apiKeyMatchLen (apiKeyEq ++ key) true content
    else if hasSettingsHeader content then
      goRepl settingsMatchLen (settingsChars ++ '\n' :: (apiKeyEq ++ key)) true content
    else
      settingsChars ++ '\n' :: (apiKeyEq ++ (key ++ '\n' :: '\n' :: content))
  | none => settingsChars ++ '\n' :: (apiKeyEq ++ (key ++ ['\n']))

/-- Outcome of the `wakatime-setup` command on the persistent state it can
touch: the credentials-file content and the `enabled` flag. -/
structure SetupResult where
  file : Option (List Char)
  enabled : Bool
deriving DecidableEq, Repr

/-- Embedding of the `wakatime-setup` handler: no UI, a missing/empty
argument, or an invalid key all leave the file and the flag untouched; a
valid key is saved and tracking re-enabled. -/
def wakatimeSetup (hasUI : Bool) (file : Option (List Char)) (enabled : Bool)
    (apiKeyArg : Option String) : SetupResult :=
  if !hasUI then ⟨file, enabled⟩
  else
    match truthy apiKeyArg with
    | none => ⟨file, enabled⟩
    | some k =>
      if !isValidApiKey k then ⟨file, enabled⟩
      else ⟨some (saveApiKeyContent file k.data), true⟩

/-- Anchored-match count starting from the beginning-of-content anchor. -/
def countAnchored (ml : List Char → Option Nat) (cs : List Char) : Nat :=
  goCount ml true cs

/-- The settings header minus its first character. -/
def settingsTail : List Char := ['s', 'e', 't', 't', 'i', 'n', 'g', 's', ']']

/-- The api_key replacement text minus its first character. -/
def apiKeyEqTail : List Char := ['p', 'i', '_', 'k', 'e', 'y', ' ', '=', ' ']

/-- The shape shared by the credentials files produced from an empty or
absent file: the settings header line, an api_key line holding `k`, its
newline, then a trailing rest `X` (empty, or one extra blank line). -/
def cfgFile (k X : List Char) : List Char :=
  settingsChars ++ '\n' :: (apiKeyEq ++ (k ++ '\n' :: X))

/-! ### Concrete fixtures used by counterexamples and witnesses -/

/-- A session state with tracking fully on, a selected model, project and
branch, as after a successful session start plus a model selection. -/
def stOn : SessionState :=
  { config :=
      { enabled := true
        trackFiles := true
        trackSessions := true
        category := "ai coding"
        cliPath := "/home/u/.wakatime/wakatime-cli" }
    currentModel := some "anthropic/claude-opus-4"
    currentProject := some "proj"
    currentBranch := some "main"
    cliAvailable := true }

/-- The same state with the `enabled` gate off. -/
def stOff : SessionState :=
  { stOn with config := { stOn.config with enabled := false } }

/-- Session-level heartbeat options as built by the `session_start` handler. -/
def optsApp : HeartbeatOptions :=
  { entity := "/home/u/proj"
    entityType := some EntityType.app
    category := some "ai coding" }

/-- The documented bare-UUID sample credential, as characters. -/
def keyFix1 : List Char := "12345678-1234-1234-1234-123456789012".data

/-- The documented waka-prefixed sample credential, as characters. -/
def keyFix2 : List Char := "waka_12345678-1234-1234-1234-123456789012".data

/-- A trivial load environment: no settings override, no CLI binary, no git
metadata anywhere. -/
def loadEnvPlain : LoadEnv :=
  { settingsWakatime := none
    homedir := "/home/u"
    fileExists := fun _ => false
    cwd := ["proj", "home"]
    gitfs := fun _ => GitEntry.missing
    headContent := fun _ => none }

/-- A git filesystem where `/a/b/.git` is a file with malformed content (no
`"gitdir: "` marker) while `/a/.git` is a regular directory. -/
def gitfsC : List String → GitEntry := fun dirs =>
  if dirs = ["b", "a"] then GitEntry.file "not a git pointer"
  else if dirs = ["a"] then GitEntry.dir
  else GitEntry.missing

/-- An existence oracle under which every path exists. -/
def fexTrue : String → Bool := fun _ => true

/-- A tool context over `/w` where every file exists and no model is carried. -/
def ctxW : ToolCtx :=
  { cwd := "/w", fileExists := fexTrue, model := none }

/-- A write tool result whose written content is the empty string. -/
def evWriteEmpty : ToolEvent :=
  { toolName := "write", path := some "f.ts", content := some "" }

/-- An edit tool result whose old and new text are both empty (an edit of
zero net line change, since both sides have one newline-delimited segment). -/
def evEditEmpty : ToolEvent :=
  { toolName := "edit", path := some "f.ts", oldText := some "", newText := some "" }

/-- An edit replacing two lines by two different lines (net-zero, non-empty). -/
def evEditSwap : ToolEvent :=
  { toolName := "edit", path := some "f.ts", oldText := some "a\nb", newText := some "x\ny" }

/-- A write of three lines. -/
def evWrite3 : ToolEvent :=
  { toolName := "write", path := some "f.ts", content := some "a\nb\nc" }

/-- A read tool result. -/
def evRead : ToolEvent :=
  { toolName := "read", path := some "f.ts" }

/-! ### Small facts about the state helpers -/

theorem updateModel_config (m : Option ModelDesc) (s : SessionState) :
    (updateModelFromContext m s).config = s.config := by
  cases m <;> rfl

theorem updateModel_cliAvailable (m : Option ModelDesc) (s : SessionState) :
    (updateModelFromContext m s).cliAvailable = s.cliAvailable := by
  cases m <;> rfl

theorem updateModel_currentProject (m : Option ModelDesc) (s : SessionState) :
    (updateModelFromContext m s).currentProject = s.currentProject := by
  cases m <;> rfl

theorem updateModel_currentBranch (m : Option ModelDesc) (s : SessionState) :
    (updateModelFromContext m s).currentBranch = s.currentBranch := by
  cases m <;> rfl

/-! ### C6 -/

/-- C6: whenever the enabled flag or the CLI-availability flag is off,
`sendHeartbeat` is a complete silent no-op — it spawns no subprocess (the
argument-list component is `none`) and leaves the session state unchanged,
for every version string and every request contents. -/
theorem c6_disabled_dispatch_noop (s : SessionState) (piVersion : String)
    (opts : HeartbeatOptions) (h : s.config.enabled = false ∨ s.cliAvailable = false) :
    sendHeartbeat s piVersion opts = (s, none) := by
  unfold sendHeartbeat sendHeartbeatArgs
  rcases h with h | h <;> simp [h]

/-- Witness for C6 at a concrete disabled state. -/
theorem c6_disabled_dispatch_noop_witness :
    sendHeartbeat stOff "0.1.2" optsApp = (stOff, none) :=
  c6_disabled_dispatch_noop stOff "0.1.2" optsApp (Or.inl (by decide))

/-! ### C2 -/

/-- C2 counterexample: `loadConfig` does not reset `currentModel`. Starting
from a state whose model is set, initialization leaves it set, so after
initialize and before any model-carrying event `currentModel` is not absent,
refuting the claim at this input. -/
theorem c2_counterexample :
    (loadConfig loadEnvPlain stOn).currentModel = some "anthropic/claude-opus-4" ∧
    (loadConfig loadEnvPlain stOn).currentModel ≠ none := by
  constructor
  · rfl
  · intro h
    simp [loadConfig, loadEnvPlain, stOn] at h

/-- C2 amended: session-state initialization (`loadConfig`) leaves
`currentModel` untouched for every environment and starting state; it is
absent after initialization only when it was already absent beforehand (as in
a fresh process). -/
theorem c2_amended_load_keeps_model (env : LoadEnv) (s : SessionState) :
    (loadConfig env s).currentModel = s.currentModel := rfl

/-! ### C3 -/

/-- C3 counterexample: with a model selected (`stOn` carries
`anthropic/claude-opus-4`) and no caller-supplied plugin string, the
dispatched plugin identifier is the fixed name plus the host version only;
the model identifier does not occur in it (nor anywhere in the argument
list), refuting the claim at this input. -/
theorem c3_counterexample :
    sendHeartbeatArgs stOn "0.1.2" { entity := "/home/u/proj/f.ts" } =
      some ["--entity", "/home/u/proj/f.ts", "--category", "ai coding",
        "--project", "proj", "--alternate-branch", "main",
        "--plugin", "pi-coding-agent/0.1.2"] ∧
    ¬ ("anthropic/claude-opus-4".data <:+: "pi-coding-agent/0.1.2".data) := by
  constructor
  · rfl
  · decide

/-- C3 amended: when the caller supplies no plugin string, the plugin
identifier is composed from the fixed name and the host application's version
only; the active model identifier is not part of it, and the whole dispatched
argument list is independent of `currentModel`. -/
theorem c3_amended_plugin_excludes_model (s : SessionState) (m : Option String)
    (piVersion : String) (opts : HeartbeatOptions) (h : opts.plugin = none) :
    pluginArgs piVersion opts = ["--plugin", "pi-coding-agent/" ++ piVersion] ∧
    sendHeartbeatArgs { s with currentModel := m } piVersion opts =
      sendHeartbeatArgs s piVersion opts := by
  constructor
  · simp [pluginArgs, jsOrStr, truthy, h]
  · rfl

/-- Witness for C3 amended at a concrete state and option record. -/
theorem c3_amended_plugin_excludes_model_witness :
    pluginArgs "0.1.2" ({ entity := "/home/u/proj/f.ts" } : HeartbeatOptions) =
      ["--plugin", "pi-coding-agent/" ++ "0.1.2"] ∧
    sendHeartbeatArgs { stOn with currentModel := some "x/y" } "0.1.2"
        { entity := "/home/u/proj/f.ts" } =
      sendHeartbeatArgs stOn "0.1.2" { entity := "/home/u/proj/f.ts" } :=
  c3_amended_plugin_excludes_model stOn (some "x/y") "0.1.2"
    { entity := "/home/u/proj/f.ts" } rfl

/-! ### C1 -/

/-- C1 counterexample: starting at `/a/b`, a `.git` metadata entry exists at
the starting level but its branch/redirect extraction fails there; the
locator does not stop with an absent result — it continues to the parent and
returns the `.git` directory found at `/a`, refuting the claim at this
input. -/
theorem c1_counterexample :
    gitfsC ["b", "a"] ≠ GitEntry.missing ∧
    levelResult gitfsC ["b", "a"] = none ∧
    findGitDir gitfsC ["b", "a"] = some (GitDirResult.gitDir ["a"]) := by
  refine ⟨by decide, by decide, by decide⟩

/-- C1 amended: the locator stops at the nearest ancestor level whose `.git`
entry is a directory or a redirect file with well-formed `"gitdir: "`
content — exactly the levels where `levelResult` succeeds. A level whose
`.git` entry exists but is a malformed redirect file (or neither file nor
directory) does not stop the search; the search continues to higher
ancestors, and the result is absent only when no non-root ancestor level
succeeds. -/
theorem c1_amended_first_local_match (gitfs : List String → GitEntry) (dirs : List String) :
    findGitDir gitfs dirs = (dirs.tails.filterMap (levelResult gitfs)).head? := by
  induction dirs with
  | nil => simp [findGitDir, levelResult]
  | cons d rest ih =>
    rw [List.tails_cons, List.filterMap_cons]
    cases hg : gitfs (d :: rest) with
    | dir => simp [findGitDir, levelResult, hg]
    | file content =>
      by_cases hc : strStartsWith (strTrim content) "gitdir: " = true
      · simp [findGitDir, levelResult, hg, hc]
      · simp [findGitDir, levelResult, hg, hc, ih]
    | missing => simp [findGitDir, levelResult, hg, ih]
    | strange => simp [findGitDir, levelResult, hg, ih]

/-! ### C5 -/

/-- C5 counterexample: a write whose content is the empty string has exactly
one newline-delimited segment, yet the dispatched heartbeat carries no AI
line-change count at all (the handler's truthiness test skips the empty
string), so the attached count does not equal the segment count, refuting the
claim at this input. A heartbeat is still dispatched. -/
theorem c5_counterexample :
    countLines "" = 1 ∧
    (dispatchDecision evWriteEmpty "/w" fexTrue).map (fun o => o.aiLineChanges) = some none ∧
    (dispatchDecision evWriteEmpty "/w" fexTrue).map aiLineChangesArgs = some [] ∧
    ((handleToolResult stOn "0.1.2" evWriteEmpty ctxW).2).isSome = true := by
  refine ⟨by decide, by decide, by decide, by decide⟩

/-- C5 amended: for every write tool-result event whose content is non-empty
and consists of N newline-delimited segments, the AI line-change count passed
to the dispatcher, and the `--ai-line-changes` argument it produces, equal N
exactly (N is the number of newline characters plus one). -/
theorem c5_amended_write_count (ev : ToolEvent) (cwd : String) (fex : String → Bool)
    (p content : String) (htool : ev.toolName = "write")
    (hp : truthy ev.path = some p) (hc : ev.content = some content) (hne : content ≠ "") :
    (dispatchDecision ev cwd fex).map (fun o => o.aiLineChanges) =
      some (some (content.data.count '\n' + 1)) ∧
    (dispatchDecision ev cwd fex).map aiLineChangesArgs =
      some ["--ai-line-changes", toString (content.data.count '\n' + 1)] := by
  have hdd : dispatchDecision ev cwd fex =
      some { entity := pathResolve cwd p
             entityType := some EntityType.file
             isWrite := some true
             aiLineChanges := some (countLines content) } := by
    unfold dispatchDecision
    rw [hp, htool, hc]
    simp [truthy, hne]
  rw [hdd]
  constructor
  · simp [countLines]
  · simp [aiLineChangesArgs, countLines]

/-- Witness for C5 amended: a three-line write reports exactly three. -/
theorem c5_amended_write_count_witness :
    (dispatchDecision evWrite3 "/w" fexTrue).map (fun o => o.aiLineChanges) =
      some (some ("a\nb\nc".data.count '\n' + 1)) ∧
    (dispatchDecision evWrite3 "/w" fexTrue).map aiLineChangesArgs =
      some ["--ai-line-changes", toString ("a\nb\nc".data.count '\n' + 1)] :=
  c5_amended_write_count evWrite3 "/w" fexTrue "f.ts" "a\nb\nc" rfl rfl rfl (by decide)

/-! ### C4 -/

/-- C4 counterexample: an edit whose old and new text are both empty is a
net-zero edit (one segment to one segment), but the reported AI line-change
count is absent rather than exactly 1 — the handler's truthiness test skips
empty texts — refuting the claim at this input. A heartbeat is still
dispatched, with no count attached. -/
theorem c4_counterexample :
    countLines "" = countLines "" ∧
    (dispatchDecision evEditEmpty "/w" fexTrue).map (fun o => o.aiLineChanges) = some none ∧
    (dispatchDecision evEditEmpty "/w" fexTrue).map aiLineChangesArgs = some [] ∧
    ((handleToolResult stOn "0.1.2" evEditEmpty ctxW).2).isSome = true := by
  refine ⟨rfl, by decide, by decide, by decide⟩

/-- C4 amended: for every edit tool-result event whose old and new text are
both non-empty, the reported AI line-change count equals the absolute
difference of the two line counts with a floor of 1; in particular a net-zero
edit (equal line counts) reports exactly 1, never 0. -/
theorem c4_amended_edit_floor (ev : ToolEvent) (cwd : String) (fex : String → Bool)
    (p oldText newText : String) (htool : ev.toolName = "edit")
    (hp : truthy ev.path = some p) (ho : ev.oldText = some oldText)
    (hn : ev.newText = some newText) (hone : oldText ≠ "") (hnne : newText ≠ "") :
    (dispatchDecision ev cwd fex).map (fun o => o.aiLineChanges) =
      some (some (max 1 ((countLines newText : Int) - (countLines oldText : Int)).natAbs)) ∧
    (dispatchDecision ev cwd fex).map aiLineChangesArgs =
      some ["--ai-line-changes",
        toString (max 1 ((countLines newText : Int) - (countLines oldText : Int)).natAbs)] ∧
    (countLines oldText = countLines newText →
      (dispatchDecision ev cwd fex).map (fun o => o.aiLineChanges) = some (some 1)) := by
  have hfloor : ∀ x : Int, (if x = 0 then 1 else x.natAbs) = max 1 x.natAbs := by
    intro x
    by_cases h : x = 0
    · simp [h]
    · rw [if_neg h, Nat.max_eq_right (Int.natAbs_pos.mpr h)]
  have hdd : dispatchDecision ev cwd fex =
      some { entity := pathResolve cwd p
             entityType := some EntityType.file
             isWrite := some true
             aiLineChanges :=
               some (max 1 ((countLines newText : Int) - (countLines oldText : Int)).natAbs) } := by
    unfold dispatchDecision
    rw [hp, htool, ho, hn]
    simp [truthy, hone, hnne, hfloor]
  refine ⟨by rw [hdd]; rfl, ?_, ?_⟩
  · rw [hdd]
    simp [aiLineChangesArgs]
  · intro heq
    rw [hdd, heq]
    simp

/-- Witness for C4 amended: a net-zero two-line edit reports exactly 1. -/
theorem c4_amended_edit_floor_witness :
    (dispatchDecision evEditSwap "/w" fexTrue).map (fun o => o.aiLineChanges) =
      some (some 1) :=
  (c4_amended_edit_floor evEditSwap "/w" fexTrue "f.ts" "a\nb" "x\ny" rfl rfl rfl rfl
    (by decide) (by decide)).2.2 (by decide)

/-! ### Shared dispatch lemmas -/

/-- For a write or edit with a truthy path, the handler always hands the
dispatcher options with the file entity type and the write flag set; only the
line-change payload varies. -/
theorem dispatchDecision_write_or_edit (ev : ToolEvent) (cwd : String) (fex : String → Bool)
    (p : String) (ht : ev.toolName = "write" ∨ ev.toolName = "edit")
    (hp : truthy ev.path = some p) :
    ∃ ai, dispatchDecision ev cwd fex =
      some { entity := pathResolve cwd p
             entityType := some EntityType.file
             isWrite := some true
             aiLineChanges := ai } := by
  rcases ht with ht | ht
  · refine ⟨match truthy ev.content with
      | some c => some (countLines c)
      | none => none, ?_⟩
    unfold dispatchDecision
    rw [hp, ht]
    cases hc : truthy ev.content <;> simp [hc]
  · refine ⟨match truthy ev.oldText, truthy ev.newText with
      | some o, some n =>
        some (if ((countLines n : Int) - (countLines o : Int)).natAbs = 0 then 1
          else ((countLines n : Int) - (countLines o : Int)).natAbs)
      | _, _ => none, ?_⟩
    unfold dispatchDecision
    rw [hp, ht]
    cases h1 : truthy ev.oldText <;> cases h2 : truthy ev.newText <;> simp [h1, h2]

/-- When all gates pass and the handler decides to dispatch options `o`, the
`tool_result` handler spawns the CLI with exactly the argument list built
from `o` and the (model-update-invariant) session state. -/
theorem handleToolResult_dispatches (s : SessionState) (piVersion : String) (ev : ToolEvent)
    (ctx : ToolCtx) (o : HeartbeatOptions)
    (hen : s.config.enabled = true) (htf : s.config.trackFiles = true)
    (hcli : s.cliAvailable = true)
    (hdd : dispatchDecision ev ctx.cwd ctx.fileExists = some o) :
    (handleToolResult s piVersion ev ctx).2 =
      some (entityArgs o ++ entityTypeArgs o ++ categoryArgs s.config.category o ++
        projectArgs s.currentProject o ++ branchArgs s.currentBranch o ++
        writeArgs o ++ aiLineChangesArgs o ++ pluginArgs piVersion o) := by
  unfold handleToolResult
  rw [hen, htf, hdd]
  simp [sendHeartbeat, sendHeartbeatArgs, updateModel_config, updateModel_cliAvailable,
    updateModel_currentProject, updateModel_currentBranch, hen, hcli]

/-! ### C10 -/

/-- C10: a write whose content is the empty string, and an edit whose old or
new text is the empty string, still dispatch a heartbeat for the file, but no
AI line-change count is attached: the decided options carry no count, the
`--ai-line-changes` argument block is empty, and the CLI is still invoked. -/
theorem c10_empty_content_no_count (s : SessionState) (piVersion : String) (ctx : ToolCtx)
    (ev : ToolEvent) (p : String)
    (hen : s.config.enabled = true) (htf : s.config.trackFiles = true)
    (hcli : s.cliAvailable = true) (hp : truthy ev.path = some p)
    (hcase : (ev.toolName = "write" ∧ ev.content = some "") ∨
      (ev.toolName = "edit" ∧ (ev.oldText = some "" ∨ ev.newText = some ""))) :
    (dispatchDecision ev ctx.cwd ctx.fileExists).map (fun o => o.aiLineChanges) = some none ∧
    (dispatchDecision ev ctx.cwd ctx.fileExists).map aiLineChangesArgs = some [] ∧
    ((handleToolResult s piVersion ev ctx).2).isSome = true := by
  have hdd : dispatchDecision ev ctx.cwd ctx.fileExists =
      some { entity := pathResolve ctx.cwd p
             entityType := some EntityType.file
             isWrite := some true
             aiLineChanges := none } := by
    rcases hcase with ⟨ht, hc⟩ | ⟨ht, hoe⟩
    · unfold dispatchDecision
      rw [hp, ht, hc]
      simp [truthy]
    · unfold dispatchDecision
      rw [hp, ht]
      rcases hoe with hoe | hne
      · rw [hoe]
        cases h2 : truthy ev.newText <;> simp [truthy, h2]
      · rw [hne]
        cases h1 : truthy ev.oldText <;> simp [truthy, h1]
  refine ⟨by rw [hdd]; rfl, by rw [hdd]; rfl, ?_⟩
  rw [handleToolResult_dispatches s piVersion ev ctx _ hen htf hcli hdd]
  rfl

/-- Witness for C10 at a concrete empty write. -/
theorem c10_empty_content_no_count_witness :
    (dispatchDecision evWriteEmpty ctxW.cwd ctxW.fileExists).map
        (fun o => o.aiLineChanges) = some none ∧
    (dispatchDecision evWriteEmpty ctxW.cwd ctxW.fileExists).map aiLineChangesArgs = some [] ∧
    ((handleToolResult stOn "0.1.2" evWriteEmpty ctxW).2).isSome = true :=
  c10_empty_content_no_count stOn "0.1.2" ctxW evWriteEmpty "f.ts" rfl rfl rfl rfl
    (Or.inl ⟨rfl, rfl⟩)

/-! ### C7 -/

/-- C7: with tracking gates open, (i) a read whose resolved target does not
exist dispatches nothing; (ii) a read whose target exists dispatches a
heartbeat whose write flag is false (so the `--write` block is empty);
(iii) every tracked write or edit dispatches a heartbeat whose write flag is
true, and the spawned argument list contains `--write`. -/
theorem c7_read_write_flags (s : SessionState) (piVersion : String) (ctx : ToolCtx)
    (hen : s.config.enabled = true) (htf : s.config.trackFiles = true)
    (hcli : s.cliAvailable = true) :
    (∀ ev p, ev.toolName = "read" → truthy ev.path = some p →
      ctx.fileExists (pathResolve ctx.cwd p) = false →
      (handleToolResult s piVersion ev ctx).2 = none) ∧
    (∀ ev p, ev.toolName = "read" → truthy ev.path = some p →
      ctx.fileExists (pathResolve ctx.cwd p) = true →
      (dispatchDecision ev ctx.cwd ctx.fileExists).map (fun o => o.isWrite) =
        some (some false) ∧
      (dispatchDecision ev ctx.cwd ctx.fileExists).map writeArgs = some [] ∧
      ((handleToolResult s piVersion ev ctx).2).isSome = true) ∧
    (∀ ev p, (ev.toolName = "write" ∨ ev.toolName = "edit") → truthy ev.path = some p →
      (dispatchDecision ev ctx.cwd ctx.fileExists).map (fun o => o.isWrite) =
        some (some true) ∧
      (dispatchDecision ev ctx.cwd ctx.fileExists).map writeArgs = some ["--write"] ∧
      "--write" ∈ ((handleToolResult s piVersion ev ctx).2).getD [] ∧
      ((handleToolResult s piVersion ev ctx).2).isSome = true) := by
  refine ⟨?_, ?_, ?_⟩
  · intro ev p ht hp hex
    unfold handleToolResult
    rw [hen, htf]
    have hdd : dispatchDecision ev ctx.cwd ctx.fileExists = none := by
      unfold dispatchDecision
      rw [hp, ht]
      simp [hex]
    rw [hdd]
    simp
  · intro ev p ht hp hex
    have hdd : dispatchDecision ev ctx.cwd ctx.fileExists =
        some { entity := pathResolve ctx.cwd p
               entityType := some EntityType.file
               isWrite := some false
               aiLineChanges := none } := by
      unfold dispatchDecision
      rw [hp, ht]
      simp [hex]
    refine ⟨by rw [hdd]; rfl, by rw [hdd]; rfl, ?_⟩
    rw [handleToolResult_dispatches s piVersion ev ctx _ hen htf hcli hdd]
    rfl
  · intro ev p ht hp
    obtain ⟨ai, hdd⟩ := dispatchDecision_write_or_edit ev ctx.cwd ctx.fileExists p ht hp
    refine ⟨by rw [hdd]; rfl, by rw [hdd]; rfl, ?_, ?_⟩
    · rw [handleToolResult_dispatches s piVersion ev ctx _ hen htf hcli hdd]
      simp [entityArgs, entityTypeArgs, categoryArgs, projectArgs, branchArgs,
        writeArgs, aiLineChangesArgs, pluginArgs]
    · rw [handleToolResult_dispatches s piVersion ev ctx _ hen htf hcli hdd]
      rfl

/-- Witness for C7 at a concrete existing-file read and a concrete write. -/
theorem c7_read_write_flags_witness :
    ((dispatchDecision evRead ctxW.cwd ctxW.fileExists).map (fun o => o.isWrite) =
        some (some false) ∧
      (dispatchDecision evRead ctxW.cwd ctxW.fileExists).map writeArgs = some [] ∧
      ((handleToolResult stOn "0.1.2" evRead ctxW).2).isSome = true) ∧
    ((dispatchDecision evWrite3 ctxW.cwd ctxW.fileExists).map (fun o => o.isWrite) =
        some (some true) ∧
      (dispatchDecision evWrite3 ctxW.cwd ctxW.fileExists).map writeArgs =
        some ["--write"] ∧
      "--write" ∈ ((handleToolResult stOn "0.1.2" evWrite3 ctxW).2).getD [] ∧
      ((handleToolResult stOn "0.1.2" evWrite3 ctxW).2).isSome = true) :=
  ⟨(c7_read_write_flags stOn "0.1.2" ctxW rfl rfl rfl).2.1 evRead "f.ts" rfl rfl rfl,
    (c7_read_write_flags stOn "0.1.2" ctxW rfl rfl rfl).2.2 evWrite3 "f.ts" (Or.inl rfl) rfl⟩

/-! ### C8 -/

/-- C8: credential validation accepts exactly the two documented shapes — the
bare UUID sample and the waka-prefixed sample are accepted, the malformed
sample is rejected — and a rejected setup aborts without touching the
credentials file or the enabled flag, for every prior file content and flag
value. -/
theorem c8_key_validation :
    isValidApiKey "12345678-1234-1234-1234-123456789012" = true ∧
    isValidApiKey "waka_12345678-1234-1234-1234-123456789012" = true ∧
    isValidApiKey "not-a-key" = false ∧
    ∀ (hasUI : Bool) (file : Option (List Char)) (enabled : Bool),
      wakatimeSetup hasUI file enabled (some "not-a-key") = ⟨file, enabled⟩ := by
  refine ⟨by decide, by decide, by decide, ?_⟩
  intro hasUI file enabled
  have hinv : isValidApiKey "not-a-key" = false := by decide
  cases hasUI <;> simp [wakatimeSetup, truthy, hinv]

/-! ### Scanner and matcher lemmas for the credentials file -/

theorem plainChar_not_nl (c : Char) (h : plainChar c = true) : (c == '\n') = false := by
  unfold plainChar at h
  rw [Bool.and_eq_true] at h
  simpa using h.1

theorem countWhile_cons_of_pos (p : Char → Bool) (c : Char) (cs : List Char) (h : p c = true) :
    countWhile p (c :: cs) = countWhile p cs + 1 := by
  simp [countWhile, h]

theorem countWhile_cons_of_neg (p : Char → Bool) (c : Char) (cs : List Char) (h : p c = false) :
    countWhile p (c :: cs) = 0 := by
  simp [countWhile, h]

theorem countWhile_append_of_all (p : Char → Bool) (l r : List Char) (h : l.all p = true) :
    countWhile p (l ++ r) = l.length + countWhile p r := by
  induction l with
  | nil => simp
  | cons c l ih =>
    rw [List.all_cons, Bool.and_eq_true] at h
    rw [List.cons_append, countWhile_cons_of_pos p c (l ++ r) h.1, ih h.2]
    simp only [List.length_cons]
    omega

theorem isPrefixOf_self_append (l r : List Char) : l.isPrefixOf (l ++ r) = true := by
  induction l with
  | nil => simp [List.isPrefixOf]
  | cons c l ih => simp [List.isPrefixOf, ih]

/-- The api_key matcher fails at any position whose first character is
neither whitespace nor the letter a. -/
theorem apiKeyMatchLen_cons_none (c : Char) (Y : List Char)
    (h1 : isJsWs c = false) (h2 : (('a' : Char) == c) = false) :
    apiKeyMatchLen (c :: Y) = none := by
  unfold apiKeyMatchLen
  rw [countWhile_cons_of_neg _ _ _ h1]
  simp [apiKeyChars, List.isPrefixOf, h2]

/-- The api_key matcher at the start of an api_key line holding a key `k`
free of line terminators: it matches, covering the whole line. -/
theorem apiKeyMatchLen_at_line (k X : List Char) (hk : k.all plainChar = true) :
    apiKeyMatchLen ('a' :: (apiKeyEqTail ++ (k ++ '\n' :: X))) = some (10 + k.length) := by
  have h0 : countWhile isJsWs ('a' :: (apiKeyEqTail ++ (k ++ '\n' :: X))) = 0 :=
    countWhile_cons_of_neg _ _ _ (by decide)
  have hpre : apiKeyChars.isPrefixOf ('a' :: (apiKeyEqTail ++ (k ++ '\n' :: X))) = true :=
    isPrefixOf_self_append apiKeyChars ([' ', '=', ' '] ++ (k ++ '\n' :: X))
  have h2 : countWhile isJsWs (' ' :: '=' :: ' ' :: (k ++ '\n' :: X)) = 1 := by
    rw [countWhile_cons_of_pos _ _ _ (by decide), countWhile_cons_of_neg _ _ _ (by decide)]
  have h3 : countWhile plainChar (' ' :: (k ++ '\n' :: X)) = k.length + 1 := by
    rw [countWhile_cons_of_pos _ _ _ (by decide), countWhile_append_of_all _ _ _ hk,
      countWhile_cons_of_neg _ _ _ (by decide)]
  simp only [apiKeyMatchLen, h0, List.drop_zero, hpre, if_true]
  rw [show ('a' :: (apiKeyEqTail ++ (k ++ '\n' :: X))).drop 7 =
    ' ' :: '=' :: ' ' :: (k ++ '\n' :: X) from rfl]
  rw [h2]
  rw [show (' ' :: '=' :: ' ' :: (k ++ '\n' :: X)).drop 1 =
    '=' :: ' ' :: (k ++ '\n' :: X) from rfl]
  show some (0 + 7 + 1 + 1 + countWhile plainChar (' ' :: (k ++ '\n' :: X))) =
    some (10 + k.length)
  rw [h3]
  congr 1
  omega

/-- Dropping the whole matched api_key line leaves the newline and the rest. -/
theorem drop_apiKey_line (k X : List Char) :
    ('a' :: (apiKeyEqTail ++ (k ++ '\n' :: X))).drop (10 + k.length) = '\n' :: X := by
  have h : 'a' :: (apiKeyEqTail ++ (k ++ '\n' :: X)) = (apiKeyEq ++ k) ++ ('\n' :: X) := rfl
  have hlen : (apiKeyEq ++ k).length = 10 + k.length := by
    simp [apiKeyEq, apiKeyChars]
    omega
  rw [h, ← hlen, List.drop_left]

/-- The settings matcher succeeds wherever the header starts. -/
theorem settingsMatchLen_self_append (Y : List Char) :
    settingsMatchLen (settingsChars ++ Y) = some 10 := by
  unfold settingsMatchLen
  rw [isPrefixOf_self_append]
  rfl

/-- The settings matcher fails at any position not starting with a bracket. -/
theorem settingsMatchLen_cons_none (c : Char) (Y : List Char)
    (h : (('[' : Char) == c) = false) : settingsMatchLen (c :: Y) = none := by
  simp [settingsMatchLen, settingsChars, List.isPrefixOf, h]

/-! Step equations for the three anchored scanners. -/

theorem goTest_true_step (ml : List Char → Option Nat) (c : Char) (rest : List Char) :
    goTest ml true (c :: rest) = ((ml (c :: rest)).isSome || goTest ml (c == '\n') rest) := rfl

theorem goTest_false_step (ml : List Char → Option Nat) (c : Char) (rest : List Char) :
    goTest ml false (c :: rest) = goTest ml (c == '\n') rest := rfl

theorem goCount_true_step (ml : List Char → Option Nat) (c : Char) (rest : List Char) :
    goCount ml true (c :: rest) =
      (if (ml (c :: rest)).isSome then 1 else 0) + goCount ml (c == '\n') rest := rfl

theorem goCount_false_step (ml : List Char → Option Nat) (c : Char) (rest : List Char) :
    goCount ml false (c :: rest) = goCount ml (c == '\n') rest := rfl

theorem goRepl_true_step (ml : List Char → Option Nat) (repl : List Char) (c : Char)
    (rest : List Char) :
    goRepl ml repl true (c :: rest) =
      (match ml (c :: rest) with
        | some n => repl ++ (c :: rest).drop n
        | none => c :: goRepl ml repl (c == '\n') rest) := rfl

theorem goRepl_false_step (ml : List Char → Option Nat) (repl : List Char) (c : Char)
    (rest : List Char) :
    goRepl ml repl false (c :: rest) = c :: goRepl ml repl (c == '\n') rest := rfl

/-! Skipping a line-terminator-free block while not at an anchor. -/

theorem goTest_skip (ml : List Char → Option Nat) (l r : List Char)
    (hl : l.all plainChar = true) : goTest ml false (l ++ r) = goTest ml false r := by
  induction l with
  | nil => rfl
  | cons c l ih =>
    rw [List.all_cons, Bool.and_eq_true] at hl
    rw [List.cons_append, goTest_false_step, plainChar_not_nl c hl.1, ih hl.2]

theorem goCount_skip (ml : List Char → Option Nat) (l r : List Char)
    (hl : l.all plainChar = true) : goCount ml false (l ++ r) = goCount ml false r := by
  induction l with
  | nil => rfl
  | cons c l ih =>
    rw [List.all_cons, Bool.and_eq_true] at hl
    rw [List.cons_append, goCount_false_step, plainChar_not_nl c hl.1, ih hl.2]

theorem goRepl_skip (ml : List Char → Option Nat) (repl : List Char) (l r : List Char)
    (hl : l.all plainChar = true) :
    goRepl ml repl false (l ++ r) = l ++ goRepl ml repl false r := by
  induction l with
  | nil => rfl
  | cons c l ih =>
    rw [List.all_cons, Bool.and_eq_true] at hl
    rw [List.cons_append, goRepl_false_step, plainChar_not_nl c hl.1, ih hl.2, List.cons_append]

/-! ### A valid credential contains no line terminators -/

theorem isHexI_plain (c : Char) (h : isHexI c = true) : plainChar c = true := by
  by_cases h1 : c = '\n'
  · subst h1
    exact absurd h (by decide)
  · by_cases h2 : c = '\r'
    · subst h2
      exact absurd h (by decide)
    · simp [plainChar, h1, h2]

theorem hexRun_all_plain (n : Nat) (cs r : List Char) (h : hexRun n cs = some r)
    (hr : r.all plainChar = true) : cs.all plainChar = true := by
  induction n generalizing cs with
  | zero =>
    unfold hexRun at h
    injection h with h
    subst h
    exact hr
  | succ n ih =>
    cases cs with
    | nil => exact absurd h (by simp [hexRun])
    | cons c cs' =>
      unfold hexRun at h
      by_cases hc : isHexI c = true
      · rw [if_pos hc] at h
        rw [List.all_cons, Bool.and_eq_true]
        exact ⟨isHexI_plain c hc, ih cs' h⟩
      · rw [if_neg hc] at h
        exact absurd h (by simp)

theorem consumeDash_all_plain (cs r : List Char) (h : consumeDash cs = some r)
    (hr : r.all plainChar = true) : cs.all plainChar = true := by
  cases cs with
  | nil => exact absurd h (by simp [consumeDash])
  | cons c cs' =>
    have h' : (if c = '-' then some cs' else none) = some r := h
    by_cases hc : c = '-'
    · rw [if_pos hc] at h'
      injection h' with h'
      subst h'
      subst hc
      rw [List.all_cons, Bool.and_eq_true]
      exact ⟨by decide, hr⟩
    · rw [if_neg hc] at h'
      exact absurd h' (by simp)

theorem uuidChars_all_plain (cs : List Char) (h : uuidChars cs = true) :
    cs.all plainChar = true := by
  unfold uuidChars at h
  rw [beq_iff_eq] at h
  cases h8 : hexRun 8 cs with
  | none => rw [h8] at h; simp at h
  | some r1 =>
  rw [h8] at h
  simp only [Option.some_bind] at h
  cases hd1 : consumeDash r1 with
  | none => rw [hd1] at h; simp at h
  | some r2 =>
  rw [hd1] at h
  simp only [Option.some_bind] at h
  cases h4a : hexRun 4 r2 with
  | none => rw [h4a] at h; simp at h
  | some r3 =>
  rw [h4a] at h
  simp only [Option.some_bind] at h
  cases hd2 : consumeDash r3 with
  | none => rw [hd2] at h; simp at h
  | some r4 =>
  rw [hd2] at h
  simp only [Option.some_bind] at h
  cases h4b : hexRun 4 r4 with
  | none => rw [h4b] at h; simp at h
  | some r5 =>
  rw [h4b] at h
  simp only [Option.some_bind] at h
  cases hd3 : consumeDash r5 with
  | none => rw [hd3] at h; simp at h
  | some r6 =>
  rw [hd3] at h
  simp only [Option.some_bind] at h
  cases h4c : hexRun 4 r6 with
  | none => rw [h4c] at h; simp at h
  | some r7 =>
  rw [h4c] at h
  simp only [Option.some_bind] at h
  cases hd4 : consumeDash r7 with
  | none => rw [hd4] at h; simp at h
  | some r8 =>
  rw [hd4] at h
  simp only [Option.some_bind] at h
  have p8 : r8.all plainChar = true := hexRun_all_plain 12 r8 [] h rfl
  have p7 : r7.all plainChar = true := consumeDash_all_plain r7 r8 hd4 p8
  have p6 : r6.all plainChar = true := hexRun_all_plain 4 r6 r7 h4c p7
  have p5 : r5.all plainChar = true := consumeDash_all_plain r5 r6 hd3 p6
  have p4 : r4.all plainChar = true := hexRun_all_plain 4 r4 r5 h4b p5
  have p3 : r3.all plainChar = true := consumeDash_all_plain r3 r4 hd2 p4
  have p2 : r2.all plainChar = true := hexRun_all_plain 4 r2 r3 h4a p3
  have p1 : r1.all plainChar = true := consumeDash_all_plain r1 r2 hd1 p2
  exact hexRun_all_plain 8 cs r1 h8 p1

theorem wakaKeyChars_all_plain (cs : List Char) (h : wakaKeyChars cs = true) :
    cs.all plainChar = true := by
  unfold wakaKeyChars at h
  rw [Bool.and_eq_true] at h
  obtain ⟨hpre, huuid⟩ := h
  cases cs with
  | nil => simp [wakaMark, List.isPrefixOf] at hpre
  | cons c1 t1 =>
  cases t1 with
  | nil => simp [wakaMark, List.isPrefixOf] at hpre
  | cons c2 t2 =>
  cases t2 with
  | nil => simp [wakaMark, List.isPrefixOf] at hpre
  | cons c3 t3 =>
  cases t3 with
  | nil => simp [wakaMark, List.isPrefixOf] at hpre
  | cons c4 t4 =>
  cases t4 with
  | nil => simp [wakaMark, List.isPrefixOf] at hpre
  | cons c5 rest =>
  simp only [wakaMark, List.isPrefixOf, Bool.and_eq_true, beq_iff_eq, and_true] at hpre
  obtain ⟨e1, e2, e3, e4, e5⟩ := hpre
  subst e1
  subst e2
  subst e3
  subst e4
  subst e5
  have hrest : uuidChars rest = true := huuid
  simp [plainChar, uuidChars_all_plain rest hrest]

theorem isValidApiKeyL_all_plain (cs : List Char) (h : isValidApiKeyL cs = true) :
    cs.all plainChar = true := by
  unfold isValidApiKeyL at h
  rw [Bool.or_eq_true] at h
  rcases h with h | h
  · exact uuidChars_all_plain cs h
  · exact wakaKeyChars_all_plain cs h

/-! ### Scanning the credentials files produced from empty or absent input -/

/-- The produced file, with every anchor position exposed as a cons. -/
theorem cfgFile_eq (k X : List Char) :
    cfgFile k X =
      '[' :: (settingsTail ++ ('\n' :: ('a' :: (apiKeyEqTail ++ (k ++ '\n' :: X))))) := rfl

theorem goRepl_true_none (ml : List Char → Option Nat) (repl : List Char) (c : Char)
    (rest : List Char) (h : ml (c :: rest) = none) :
    goRepl ml repl true (c :: rest) = c :: goRepl ml repl (c == '\n') rest := by
  rw [goRepl_true_step, h]

theorem goRepl_true_some (ml : List Char → Option Nat) (repl : List Char) (c : Char)
    (rest : List Char) (n : Nat) (h : ml (c :: rest) = some n) :
    goRepl ml repl true (c :: rest) = repl ++ (c :: rest).drop n := by
  rw [goRepl_true_step, h]

/-- The api_key test succeeds on every produced file. -/
theorem goTest_apiKey_cfgFile (k X : List Char) (hk : k.all plainChar = true) :
    goTest apiKeyMatchLen true (cfgFile k X) = true := by
  rw [cfgFile_eq, goTest_true_step, apiKeyMatchLen_cons_none '[' _ (by decide) (by decide)]
  rw [show (('[' : Char) == '\n') = false by decide]
  simp only [Option.isSome_none, Bool.false_or]
  rw [goTest_skip _ settingsTail _ (by decide), goTest_false_step,
    show (('\n' : Char) == '\n') = true by decide, goTest_true_step,
    apiKeyMatchLen_at_line k X hk]
  simp

/-- The settings header occurs at exactly one anchor of a produced file, plus
whatever the trailing rest contributes. -/
theorem goCount_settings_cfgFile (k X : List Char) (hk : k.all plainChar = true) :
    goCount settingsMatchLen true (cfgFile k X) = 1 + goCount settingsMatchLen true X := by
  rw [cfgFile_eq, goCount_true_step]
  rw [show settingsMatchLen
      ('[' :: (settingsTail ++ ('\n' :: ('a' :: (apiKeyEqTail ++ (k ++ '\n' :: X)))))) =
    some 10 from settingsMatchLen_self_append _]
  rw [show (('[' : Char) == '\n') = false by decide]
  simp only [Option.isSome_some, if_true]
  rw [goCount_skip _ settingsTail _ (by decide), goCount_false_step,
    show (('\n' : Char) == '\n') = true by decide, goCount_true_step,
    settingsMatchLen_cons_none 'a' _ (by decide)]
  rw [show (('a' : Char) == '\n') = false by decide]
  rw [goCount_skip _ apiKeyEqTail _ (by decide), goCount_skip _ k _ hk, goCount_false_step,
    show (('\n' : Char) == '\n') = true by decide]
  simp

/-- The api_key pattern matches at exactly one anchor of a produced file,
plus whatever the trailing rest contributes. -/
theorem goCount_apiKey_cfgFile (k X : List Char) (hk : k.all plainChar = true) :
    goCount apiKeyMatchLen true (cfgFile k X) = 1 + goCount apiKeyMatchLen true X := by
  rw [cfgFile_eq, goCount_true_step, apiKeyMatchLen_cons_none '[' _ (by decide) (by decide)]
  rw [show (('[' : Char) == '\n') = false by decide]
  simp only [Option.isSome_none, if_false]
  rw [goCount_skip _ settingsTail _ (by decide), goCount_false_step,
    show (('\n' : Char) == '\n') = true by decide, goCount_true_step,
    apiKeyMatchLen_at_line k X hk]
  rw [show (('a' : Char) == '\n') = false by decide]
  rw [goCount_skip _ apiKeyEqTail _ (by decide), goCount_skip _ k _ hk, goCount_false_step,
    show (('\n' : Char) == '\n') = true by decide]
  simp

/-- Replacing the api_key line of a produced file swaps in the new key and
changes nothing else. -/
theorem goRepl_apiKey_cfgFile (k k2 X : List Char) (hk : k.all plainChar = true) :
    goRepl apiKeyMatchLen (apiKeyEq ++ k2) true (cfgFile k X) = cfgFile k2 X := by
  rw [cfgFile_eq, goRepl_true_none _ _ _ _ (apiKeyMatchLen_cons_none '[' _ (by decide) (by decide))]
  rw [show (('[' : Char) == '\n') = false by decide]
  rw [goRepl_skip _ _ settingsTail _ (by decide), goRepl_false_step,
    show (('\n' : Char) == '\n') = true by decide]
  rw [goRepl_true_some _ _ _ _ _ (apiKeyMatchLen_at_line k X hk)]
  rw [drop_apiKey_line]
  rfl

/-- Saving into a produced file takes the replacement branch and yields the
produced file for the new key. -/
theorem saveApiKey_cfgFile_replace (key key2 X : List Char) (hk : key.all plainChar = true) :
    saveApiKeyContent (some (cfgFile key X)) key2 = cfgFile key2 X := by
  show (if hasApiKeyLine (cfgFile key X) = true then
      goRepl apiKeyMatchLen (apiKeyEq ++ key2) true (cfgFile key X)
    else if hasSettingsHeader (cfgFile key X) = true then
      goRepl settingsMatchLen (settingsChars ++ '\n' :: (apiKeyEq ++ key2)) true (cfgFile key X)
    else settingsChars ++ '\n' :: (apiKeyEq ++ (key2 ++ '\n' :: '\n' :: cfgFile key X))) =
    cfgFile key2 X
  have htest : hasApiKeyLine (cfgFile key X) = true := goTest_apiKey_cfgFile key X hk
  simp only [htest, if_true]
  exact goRepl_apiKey_cfgFile key key2 X hk

/-! ### C9 -/

/-- C9: saving a valid credential into an absent or empty credentials file
produces a file with exactly one settings section and exactly one api_key
entry (counting line-anchored occurrences); saving a second valid credential
into that file replaces the key in place — the result is exactly the file
that would have been produced for the new key, so the section is not
duplicated and the counts stay one. -/
theorem c9_save_section_unique (key key2 : List Char)
    (hk : isValidApiKeyL key = true) (hk2 : isValidApiKeyL key2 = true) :
    countAnchored settingsMatchLen (saveApiKeyContent none key) = 1 ∧
    countAnchored apiKeyMatchLen (saveApiKeyContent none key) = 1 ∧
    countAnchored settingsMatchLen (saveApiKeyContent (some []) key) = 1 ∧
    countAnchored apiKeyMatchLen (saveApiKeyContent (some []) key) = 1 ∧
    saveApiKeyContent (some (saveApiKeyContent none key)) key2 =
      saveApiKeyContent none key2 ∧
    saveApiKeyContent (some (saveApiKeyContent (some []) key)) key2 =
      saveApiKeyContent (some []) key2 ∧
    countAnchored settingsMatchLen
      (saveApiKeyContent (some (saveApiKeyContent none key)) key2) = 1 ∧
    countAnchored apiKeyMatchLen
      (saveApiKeyContent (some (saveApiKeyContent none key)) key2) = 1 := by
  have hkp : key.all plainChar = true := isValidApiKeyL_all_plain key hk
  have hkp2 : key2.all plainChar = true := isValidApiKeyL_all_plain key2 hk2
  have h1 : saveApiKeyContent none key = cfgFile key [] := rfl
  have h2 : saveApiKeyContent (some []) key = cfgFile key ['\n'] := rfl
  have h1b : saveApiKeyContent none key2 = cfgFile key2 [] := rfl
  have h2b : saveApiKeyContent (some []) key2 = cfgFile key2 ['\n'] := rfl
  refine ⟨?_, ?_, ?_, ?_, ?_, ?_, ?_, ?_⟩
  · rw [h1]
    unfold countAnchored
    rw [goCount_settings_cfgFile key [] hkp]
    rfl
  · rw [h1]
    unfold countAnchored
    rw [goCount_apiKey_cfgFile key [] hkp]
    rfl
  · rw [h2]
    unfold countAnchored
    rw [goCount_settings_cfgFile key ['\n'] hkp]
    decide
  · rw [h2]
    unfold countAnchored
    rw [goCount_apiKey_cfgFile key ['\n'] hkp]
    decide
  · rw [h1, h1b]
    exact saveApiKey_cfgFile_replace key key2 [] hkp
  · rw [h2, h2b]
    exact saveApiKey_cfgFile_replace key key2 ['\n'] hkp
  · rw [h1, saveApiKey_cfgFile_replace key key2 [] hkp]
    unfold countAnchored
    rw [goCount_settings_cfgFile key2 [] hkp2]
    rfl
  · rw [h1, saveApiKey_cfgFile_replace key key2 [] hkp]
    unfold countAnchored
    rw [goCount_apiKey_cfgFile key2 [] hkp2]
    rfl

/-- Witness for C9 at the two documented sample credentials. -/
theorem c9_save_section_unique_witness :
    countAnchored settingsMatchLen (saveApiKeyContent none keyFix1) = 1 ∧
    countAnchored apiKeyMatchLen (saveApiKeyContent none keyFix1) = 1 ∧
    countAnchored settingsMatchLen (saveApiKeyContent (some []) keyFix1) = 1 ∧
    countAnchored apiKeyMatchLen (saveApiKeyContent (some []) keyFix1) = 1 ∧
    saveApiKeyContent (some (saveApiKeyContent none keyFix1)) keyFix2 =
      saveApiKeyContent none keyFix2 ∧
    saveApiKeyContent (some (saveApiKeyContent (some []) keyFix1)) keyFix2 =
      saveApiKeyContent (some []) keyFix2 ∧
    countAnchored settingsMatchLen
      (saveApiKeyContent (some (saveApiKeyContent none keyFix1)) keyFix2) = 1 ∧
    countAnchored apiKeyMatchLen
      (saveApiKeyContent (some (saveApiKeyContent none keyFix1)) keyFix2) = 1 :=
  c9_save_section_unique keyFix1 keyFix2 (by decide) (by decide)

end PiWakatime
